import Mathlib

/-!
# ddns-updater: the IP-monitoring loop of `main.go`

A shallow embedding of `src/main.go`: the address store (`getPreviousIP`,
`persistNewIP`, `createFileStorage`), the resolver (`getPublicIP`), the
updater (`updateDNS`, `Config.getUpdateReqURL`) and one iteration of
`MonitorIPAddress`, together with the parts of Go's `net` package the program
calls (`net.ParseIP`, `IP.To4`, `IP.String`).

Conventions
* A Go `string` is a Lean `String`.  Go strings are byte sequences; every
  decision the modelled code takes on a string compares a byte with an ASCII
  character, and no byte of a multi-byte UTF-8 sequence is ASCII, so reading a
  string character by character takes the same decisions.
* A Go `error` value is its message; `nil` is `none`.
* `net.IP` is a byte slice; the nil slice is the empty list (the program never
  builds an empty non-nil slice: `net.ParseIP` returns nil or 16 bytes).
* A Go panic is an explicit `fault` outcome.
-/

namespace DdnsUpdater

/-! ## Go's `net` package: addresses -/

/-- A byte (`uint8`). -/
abbrev Byte := Fin 256

/-- The Go type `net.IP`, a byte slice; `[]` is the nil slice. -/
abbrev IP := List Byte

/-- A Go `error`, by its message. -/
abbrev Error := String

/-- A 4-byte slice: the IPv4 form `IP.To4` returns when it does not return
nil. -/
structure IPv4 where
  a : Byte
  b : Byte
  c : Byte
  d : Byte
  deriving DecidableEq, Repr

/-- The Go method `IP.To4`: the 4-byte form of an IPv4 address given in 4 bytes
or in 16 bytes (ten zero bytes, `ff ff`, then the address), and nil (`none`)
for anything else. -/
def To4 : IP → Option IPv4
  | [a, b, c, d] => some ⟨a, b, c, d⟩
  | [z0, z1, z2, z3, z4, z5, z6, z7, z8, z9, f0, f1, a, b, c, d] =>
    if [z0, z1, z2, z3, z4, z5, z6, z7, z8, z9] = List.replicate 10 0
        ∧ f0 = 0xff ∧ f1 = 0xff then some ⟨a, b, c, d⟩
    else none
  | _ => none

/-- The 16-byte (IPv4-mapped) form of an IPv4 address, as `netip.Addr.As16`
builds it and `net.ParseIP` returns it. -/
def IPv4.As16 (v : IPv4) : IP :=
  [0, 0, 0, 0, 0, 0, 0, 0, 0, 0, 0xff, 0xff, v.a, v.b, v.c, v.d]

/-- The Go helper `ubtoa`: the decimal digits of a byte, without leading
zeros. -/
def ubtoa (v : Byte) : List Char :=
  if v.val < 10 then [Char.ofNat (v.val + 48)]
  else if v.val < 100 then [Char.ofNat (v.val / 10 + 48), Char.ofNat (v.val % 10 + 48)]
  else [Char.ofNat (v.val / 100 + 48), Char.ofNat (v.val / 10 % 10 + 48),
        Char.ofNat (v.val % 10 + 48)]

/-- Dotted-decimal text of a 4-byte address. -/
def IPv4.dotted (v : IPv4) : String :=
  String.mk (ubtoa v.a ++ '.' :: (ubtoa v.b ++ '.' :: (ubtoa v.c ++ '.' :: ubtoa v.d)))

/-- The Go method `IP.String` on what `IP.To4` returns, the only values the
program formats: `"<nil>"` for the nil slice, dotted decimal for four bytes. -/
def IPString : Option IPv4 → String
  | none => "<nil>"
  | some v => v.dotted

/-! ## Go's `net` package: parsing (`net.ParseIP`, through `netip.ParseAddr`) -/

/-- The loop of `netip.parseIPv4Fields`.  Arguments: the characters still to
read, the previous character (`none` at index 0), `val`, `digLen` and the
fields stored so far (`pos` is their number). -/
def parseIPv4Loop : List Char → Option Char → Nat → Nat → List Byte → Option IPv4
  | [], _, val, _, fields =>
    match fields with
    | [a, b, c] => some ⟨a, b, c, Fin.ofNat val⟩
    | _ => none                                   -- `pos < 3`: address too short
  | ch :: rest, prev, val, digLen, fields =>
    if 48 ≤ ch.toNat ∧ ch.toNat ≤ 57 then
      if digLen = 1 ∧ val = 0 then none           -- octet with leading zero
      else
        let val := val * 10 + (ch.toNat - 48)
        if val > 255 then none                    -- field has value > 255
        else parseIPv4Loop rest (some ch) val (digLen + 1) fields
    else if ch = '.' then
      -- `i == 0 || i == len(s)-1 || s[i-1] == '.'`: field without a digit
      if prev = none ∨ rest.isEmpty ∨ prev = some '.' then none
      else if fields.length = 3 then none         -- `pos == 3`: address too long
      else parseIPv4Loop rest (some ch) 0 0 (fields ++ [Fin.ofNat val])
    else none                                     -- unexpected character

/-- The Go function `netip.parseIPv4` (`parseIPv4Fields` over the whole
string). -/
def parseIPv4 (s : List Char) : Option IPv4 :=
  parseIPv4Loop s none 0 0 []

/-- Value of a hexadecimal digit, as `parseIPv6` reads it. -/
def hexVal (ch : Char) : Option Nat :=
  if 48 ≤ ch.toNat ∧ ch.toNat ≤ 57 then some (ch.toNat - 48)
  else if 97 ≤ ch.toNat ∧ ch.toNat ≤ 102 then some (ch.toNat - 97 + 10)
  else if 65 ≤ ch.toNat ∧ ch.toNat ≤ 70 then some (ch.toNat - 65 + 10)
  else none

/-- The inner loop of `netip.parseIPv6`, reading one group of hex digits from
offset `off` with accumulator `acc`: `none` on a fifth digit, otherwise the
number of digits, the value and the rest of the string. -/
def hexGroup : List Char → Nat → Nat → Option (Nat × Nat × List Char)
  | [], off, acc => some (off, acc, [])
  | ch :: cs, off, acc =>
    match hexVal ch with
    | none => some (off, acc, ch :: cs)
    | some h =>
      let acc := acc * 16 + h
      if off > 3 then none                        -- more than 4 digits in group
      else if acc > 0xffff then none              -- overflow
      else hexGroup cs (off + 1) acc

/-- State of the outer loop of `netip.parseIPv6`: the rest of the string, the
16-byte array, the write index `i` and the position of the ellipsis (`none`
for -1). -/
structure V6State where
  s : List Char
  ip : List Byte
  i : Nat
  ellipsis : Option Nat

/-- The outer loop of `netip.parseIPv6` (`for i < 16`), one group per
iteration; every iteration advances `i` by 2 or leaves the loop, so 8
iterations are enough and the first argument, which bounds them, is never
exhausted from 8 on. -/
def parseIPv6Loop : Nat → V6State → Option V6State
  | 0, st => some st
  | fuel + 1, st =>
    if ¬ st.i < 16 then some st
    else
      match hexGroup st.s 0 0 with
      | none => none
      | some (off, acc, rest) =>
        if off = 0 then none                      -- no digits found
        else if rest.head? = some '.' then
          -- the rest may be a trailing IPv4 address
          if st.ellipsis = none ∧ st.i ≠ 12 then none
          else if st.i + 4 > 16 then none
          else
            match parseIPv4 st.s with
            | none => none
            | some v =>
              some { s := []
                     ip := (((st.ip.set st.i v.a).set (st.i + 1) v.b).set (st.i + 2) v.c).set
                            (st.i + 3) v.d
                     i := st.i + 4
                     ellipsis := st.ellipsis }
        else
          let ip := (st.ip.set st.i (Fin.ofNat (acc / 256))).set (st.i + 1) (Fin.ofNat acc)
          let i := st.i + 2
          match rest with
          | [] => some { s := [], ip := ip, i := i, ellipsis := st.ellipsis }
          | ch :: rest1 =>
            if ch ≠ ':' then none                 -- unexpected character, want colon
            else
              match rest1 with
              | [] => none                        -- colon must be followed by more
              | ':' :: rest2 =>
                if st.ellipsis ≠ none then none   -- multiple `::`
                else if rest2.isEmpty then
                  some { s := [], ip := ip, i := i, ellipsis := some i }
                else parseIPv6Loop fuel { s := rest2, ip := ip, i := i, ellipsis := some i }
              | _ :: _ =>
                parseIPv6Loop fuel { s := rest1, ip := ip, i := i, ellipsis := st.ellipsis }

/-- The Go function `netip.parseIPv6` as `net.ParseIP` uses it: the 16 bytes of
the address.  A string with a `%` yields no address: the zone after it is
either empty, which `parseIPv6` refuses, or not, and `net.ParseIP` refuses an
address with a zone. -/
def parseIPv6 (s : List Char) : Option IP :=
  if '%' ∈ s then none
  else
    let zero16 : List Byte := List.replicate 16 0
    -- a leading `::`
    let st0 : V6State :=
      match s with
      | ':' :: ':' :: rest => { s := rest, ip := zero16, i := 0, ellipsis := some 0 }
      | _ => { s := s, ip := zero16, i := 0, ellipsis := none }
    if st0.ellipsis = some 0 ∧ st0.s.isEmpty then some zero16     -- only an ellipsis
    else
      match parseIPv6Loop 8 st0 with
      | none => none
      | some st =>
        if ¬ st.s.isEmpty then none               -- trailing garbage
        else if st.i < 16 then
          match st.ellipsis with
          | none => none                          -- address string too short
          | some e =>
            -- move `ip[e:i]` to the end of the array and clear the gap
            some (st.ip.take e ++ List.replicate (16 - st.i) 0 ++ (st.ip.drop e).take (st.i - e))
        else if st.ellipsis ≠ none then none      -- `::` must expand to a zero field
        else some st.ip

/-- The scan of `netip.ParseAddr` over the characters `cs` of the string `s`:
the first `.` sends `s` to `parseIPv4`, the first `:` to `parseIPv6`, and a
`%` before either is an error. -/
def ParseAddr (s : List Char) : List Char → IP
  | [] => []
  | ch :: cs =>
    if ch = '.' then
      match parseIPv4 s with
      | some v => v.As16
      | none => []
    else if ch = ':' then
      match parseIPv6 s with
      | some ip => ip
      | none => []
    else if ch = '%' then []
    else ParseAddr s cs

/-- The Go function `net.ParseIP`: the 16-byte form of the address `s` spells
(IPv4 dotted decimal, or IPv6), or nil. -/
def ParseIP (s : String) : IP :=
  ParseAddr s.data s.data

/-! ## The operating system and the network, as the program sees them -/

/-- What a path names: a directory, or a regular file with its contents, which
may be read-only. -/
inductive Node where
  | dir
  | file (data : String) (readOnly : Bool)
  deriving DecidableEq, Repr

/-- A file system: what each path names, `none` when nothing exists there. -/
abbrev FS := String → Option Node

/-- The file system `fs` with `path` naming `node`. -/
def FS.put (fs : FS) (path : String) (node : Node) : FS :=
  fun p => if p = path then some node else fs p

/-- The Go function `os.ReadFile`: the contents of a regular file, an error for
a path that does not exist or names a directory. -/
def ReadFile (fs : FS) (path : String) : Except Error String :=
  match fs path with
  | none => .error ("open " ++ path ++ ": no such file or directory")
  | some .dir => .error ("read " ++ path ++ ": is a directory")
  | some (.file data _) => .ok data

/-- The Go function `os.WriteFile` (create or truncate, then write): the file
system afterwards and the error.  Opening a directory or a read-only file for
writing fails and leaves the file system as it was. -/
def WriteFile (fs : FS) (path : String) (data : String) : FS × Option Error :=
  match fs path with
  | none => (fs.put path (.file data false), none)
  | some .dir => (fs, some ("open " ++ path ++ ": is a directory"))
  | some (.file _ true) => (fs, some ("open " ++ path ++ ": permission denied"))
  | some (.file _ false) => (fs.put path (.file data false), none)

/-- An HTTP response (`http.Response`), with what `io.ReadAll` returns for its
body. -/
structure Response where
  StatusCode : Nat
  Status : String
  Body : Except Error String

/-- An HTTP request as `updateDNS` builds it: method, URL and the
`Authorization` header; it has no body. -/
structure Request where
  Method : String
  URL : String
  Authorization : String
  deriving DecidableEq, Repr

/-- The value `http.Client` with its timeout, in seconds. -/
structure Client where
  Timeout : Nat
  deriving DecidableEq, Repr

/-- The network and the `net/http` library during one call sequence:
`Get url` is what `http.Get` returns; `NewRequest method url` is the error of
`http.NewRequest` (it refuses a URL it cannot parse); `Do client req` is the
pair `client.Do` returns: on a transport failure or a timeout the response is
nil and the error is set, and both are set only when a redirect is refused. -/
structure Network where
  Get : String → Except Error Response
  NewRequest : String → String → Option Error
  Do : Client → Request → Option Response × Option Error

/-- Result of a Go call that may panic. -/
inductive Outcome (α : Type) where
  | ret (a : α)
  | fault (msg : String)
  deriving DecidableEq, Repr

/-- The alphabet of `base64.StdEncoding`. -/
def b64Char (n : Nat) : Char :=
  "ABCDEFGHIJKLMNOPQRSTUVWXYZabcdefghijklmnopqrstuvwxyz0123456789+/".data.getD n '='

/-- The Go method `base64.StdEncoding.EncodeToString` over the bytes of its
argument: 3 bytes to 4 characters, padded with `=`. -/
def b64Encode : List Nat → List Char
  | [] => []
  | [x] => [b64Char (x / 4), b64Char (x % 4 * 16), '=', '=']
  | [x, y] => [b64Char (x / 4), b64Char (x % 4 * 16 + y / 16), b64Char (y % 16 * 4), '=']
  | x :: y :: z :: rest =>
    b64Char (x / 4) :: b64Char (x % 4 * 16 + y / 16) :: b64Char (y % 16 * 4 + z / 64)
      :: b64Char (z % 64) :: b64Encode rest

/-- The call `b64.StdEncoding.EncodeToString([]byte(s))`. -/
def EncodeToString (s : String) : String :=
  String.mk (b64Encode (s.toUTF8.toList.map UInt8.toNat))

/-! ## `main.go` -/

/-- The struct `Config`. -/
structure Config where
  BaseHost : String
  UpdHost : String
  Username : String
  Password : String
  DNSHost : String
  Wildcard : String
  MX : String
  BackMX : String
  DBPath : String
  Interval : Nat
  Debug : Bool
  deriving DecidableEq, Repr

/-- The method `Config.getPublicIPReqURL`: `fmt.Sprintf("http://%s/", c.BaseHost)`. -/
def Config.getPublicIPReqURL (c : Config) : String :=
  "http://" ++ c.BaseHost ++ "/"

/-- The method `Config.getUpdateReqURL`, with the format string of line 128:
`"https://%s/nic/update?hostname=%s&myip=%s&&wildcard=%s&mx=%s&backmx=%s"`. -/
def Config.getUpdateReqURL (c : Config) (ip : String) : String :=
  "https://" ++ c.UpdHost ++ "/nic/update?hostname=" ++ c.DNSHost ++ "&myip=" ++ ip
    ++ "&&wildcard=" ++ c.Wildcard ++ "&mx=" ++ c.MX ++ "&backmx=" ++ c.BackMX

/-- The function `getPublicIP`: the parsed body of a GET on the resolver URL.
An error of `http.Get`, an error of `io.ReadAll`, a status other than 200 and a
body `net.ParseIP` refuses are errors, checked in this order. -/
def getPublicIP (net : Network) (conf : Config) : Except Error IP :=
  match net.Get conf.getPublicIPReqURL with
  | .error err => .error err
  | .ok res =>
    match res.Body with
    | .error err => .error err
    | .ok body =>
      if res.StatusCode ≠ 200 then
        .error ("unsuccessful status code returned from API: " ++ toString res.StatusCode)
      else
        let ipStr := body
        let ip := ParseIP ipStr
        if ip = [] then .error ("unable to parse IP address: " ++ ipStr)
        else .ok ip

/-- The function `updateDNS`: a POST on the update URL with Basic
authentication.  When `client.Do` returns an error, line 215 reads
`res.Status` to log it, which dereferences `res`: with a nil response this is a
nil-pointer panic; with a response the error is returned.  Without an error the
result is nil whatever the status of the response. -/
def updateDNS (net : Network) (conf : Config) (ip : IP) : Outcome (Option Error) :=
  let url := conf.getUpdateReqURL (IPString (To4 ip))
  match net.NewRequest "POST" url with
  | some err => .ret (some err)
  | none =>
    let auth := "Basic " ++ EncodeToString (conf.Username ++ ":" ++ conf.Password)
    let req : Request := { Method := "POST", URL := url, Authorization := auth }
    let client : Client := { Timeout := 30 }
    match net.Do client req with
    | (res, some err) =>
      match res with
      | none => .fault "invalid memory address or nil pointer dereference"
      | some _ => .ret (some err)
    | (_, none) => .ret none

/-- The function `getPreviousIP`: the parsed contents of the file; nil without
an error when they do not parse, the error of `os.ReadFile` when it fails. -/
def getPreviousIP (fs : FS) (path : String) : Except Error IP :=
  match ReadFile fs path with
  | .error err => .error err
  | .ok data => .ok (ParseIP data)

/-- The function `persistNewIP`: writes `ip.To4().String()` to the file. -/
def persistNewIP (fs : FS) (path : String) (ip : IP) : FS × Option Error :=
  WriteFile fs path (IPString (To4 ip))

/-- The function `createFileStorage`: creates an empty file when nothing exists
at `path` (a failure of `os.Create` is fatal and ends the process before the
loop starts; in this model creating always succeeds). -/
def createFileStorage (fs : FS) (path : String) : FS :=
  match fs path with
  | none => fs.put path (.file "" false)
  | some _ => fs

/-- A call the loop makes to the updater or to the store, with its argument. -/
inductive Call where
  | updateDNS (ip : IP)
  | persistNewIP (ip : IP)
  deriving DecidableEq, Repr

/-- How an iteration of the loop ends: `continue` goes on to the next tick,
`return` leaves `MonitorIPAddress`, `fault` is a panic. -/
inductive Flow where
  | continue
  | return
  | fault
  deriving DecidableEq, Repr

/-- What an iteration leaves behind: the file system, the calls it made, in
order, and how it ended. -/
structure TickResult where
  fs : FS
  calls : List Call
  flow : Flow

/-- One iteration of the loop of `MonitorIPAddress` (lines 136 to 167): resolve,
read the store, compare the texts of the 4-byte forms, update and persist.
Logging is left out: it takes no part in the control flow. -/
def tick (net : Network) (conf : Config) (fs : FS) : TickResult :=
  match getPublicIP net conf with
  | .error _ => { fs := fs, calls := [], flow := .continue }
  | .ok ip =>
    if ip = [] then { fs := fs, calls := [], flow := .continue }
    else
      match getPreviousIP fs conf.DBPath with
      | .error _ => { fs := fs, calls := [], flow := .return }
      | .ok prevIP =>
        if prevIP = [] ∨ IPString (To4 prevIP) ≠ IPString (To4 ip) then
          match updateDNS net conf ip with
          | .fault _ => { fs := fs, calls := [.updateDNS ip], flow := .fault }
          | .ret _ =>
            -- the error of `updateDNS` is logged; so is the one of `persistNewIP`
            { fs := (persistNewIP fs conf.DBPath ip).1
              calls := [.updateDNS ip, .persistNewIP ip]
              flow := .continue }
        else { fs := fs, calls := [], flow := .continue }

/-- The function `MonitorIPAddress`, run for the ticks of the list `nets` (the
state of the network at each timer tick): the iterations follow one another
until one returns or panics.  The result has the file system at the end, all
the calls made, and `continue` when the loop is still running after the last
tick of the list. -/
def MonitorIPAddress (conf : Config) : FS → List Network → TickResult
  | fs, [] => { fs := fs, calls := [], flow := .continue }
  | fs, net :: nets =>
    let r := tick net conf fs
    match r.flow with
    | .continue =>
      let rest := MonitorIPAddress conf r.fs nets
      { fs := rest.fs, calls := r.calls ++ rest.calls, flow := rest.flow }
    | .return => r
    | .fault => r

/-! ## The update URL as the specification documents it -/

/-- The update endpoint as the specification writes it,
`https://{updateHost}/nic/update?hostname={dnsHost}&myip={ip}&wildcard={wildcard}&mx={mx}&backmx={backmx}`:
the URL the specification expects, to be compared with
`Config.getUpdateReqURL`. -/
def documentedUpdateURL (c : Config) (ip : String) : String :=
  "https://" ++ c.UpdHost ++ "/nic/update?hostname=" ++ c.DNSHost ++ "&myip=" ++ ip
    ++ "&wildcard=" ++ c.Wildcard ++ "&mx=" ++ c.MX ++ "&backmx=" ++ c.BackMX

/-- The success statuses of HTTP, as the specification means them (2xx). -/
def isSuccessStatus (status : Nat) : Bool :=
  200 ≤ status && status < 300

/-- The text `s` without the white space at its ends: what the specification
calls the trimmed body. -/
def trimSpace (s : String) : String :=
  String.mk ((s.data.dropWhile Char.isWhitespace).reverse.dropWhile Char.isWhitespace).reverse

/-! ## Concrete configurations, stores and networks -/

/-- A configuration for the DNS-O-Matic service. -/
def exampleConf : Config :=
  { BaseHost := "myip.dnsomatic.com"
    UpdHost := "updates.dnsomatic.com"
    Username := "user"
    Password := "secret"
    DNSHost := "home.example.org"
    Wildcard := "NOCHG"
    MX := "NOCHG"
    BackMX := "NOCHG"
    DBPath := "/data/ip.db"
    Interval := 300
    Debug := false }

/-- A file system with nothing in it. -/
def noFiles : FS := fun _ => none

/-- A file system whose only file is the store of `exampleConf`, with the
given contents. -/
def storeWith (data : String) (readOnly : Bool) : FS :=
  noFiles.put "/data/ip.db" (.file data readOnly)

/-- A network whose resolver answers with the given status and body and whose
update endpoint makes `client.Do` return `upd`; every URL is well formed. -/
def networkWith (status : Nat) (body : String) (upd : Option Response × Option Error) :
    Network :=
  { Get := fun _ => .ok { StatusCode := status, Status := toString status, Body := .ok body }
    NewRequest := fun _ _ => none
    Do := fun _ _ => upd }

/-- The update endpoint answers 200. -/
def updateOK : Option Response × Option Error :=
  (some { StatusCode := 200, Status := "200 OK", Body := .ok "good" }, none)

/-- The update endpoint cannot be reached: `client.Do` returns a nil response
and an error. -/
def updateUnreachable : Option Response × Option Error :=
  (none, some "Post \"https://updates.dnsomatic.com/nic/update\": dial tcp: connection refused")

/-- The update endpoint redirects without end: `client.Do` returns the last
response together with an error. -/
def updateRedirectLoop : Option Response × Option Error :=
  (some { StatusCode := 302, Status := "302 Found", Body := .ok "" },
   some "Post \"https://updates.dnsomatic.com/nic/update\": stopped after 10 redirects")

/-- The address 203.0.113.5 in 16 bytes. -/
def ip203 : IP := [0, 0, 0, 0, 0, 0, 0, 0, 0, 0, 0xff, 0xff, 203, 0, 113, 5]

/-- The address 198.51.100.9 in 16 bytes. -/
def ip198 : IP := [0, 0, 0, 0, 0, 0, 0, 0, 0, 0, 0xff, 0xff, 198, 51, 100, 9]

/-- The IPv6 address `::1`. -/
def ip6one : IP := [0, 0, 0, 0, 0, 0, 0, 0, 0, 0, 0, 0, 0, 0, 0, 1]

/-- The IPv6 address `::2`. -/
def ip6two : IP := [0, 0, 0, 0, 0, 0, 0, 0, 0, 0, 0, 0, 0, 0, 0, 2]

/-- The invariant of the outer loop of `parseIPv6`: the array has 16 bytes, the
write index is even and at most 16, and the ellipsis is not after it. -/
def V6State.Inv (st : V6State) : Prop :=
  st.ip.length = 16 ∧ st.i % 2 = 0 ∧ st.i ≤ 16 ∧ ∀ e, st.ellipsis = some e → e ≤ st.i

/-! ## Lemmas on the `net` package: formatting and parsing are inverse -/

theorem digit_toNat (n : Nat) (h : n < 10) : (Char.ofNat (n + 48)).toNat = n + 48 := by
  interval_cases n <;> rfl

theorem digit_ne_dot (d : Nat) (h : d < 10) : Char.ofNat (d + 48) ≠ '.' := by
  intro hc
  have := digit_toNat d h
  rw [hc] at this
  have h46 : ('.' : Char).toNat = 46 := rfl
  omega

theorem digit_ne_colon (d : Nat) (h : d < 10) : Char.ofNat (d + 48) ≠ ':' := by
  intro hc
  have := digit_toNat d h
  rw [hc] at this
  have h58 : (':' : Char).toNat = 58 := rfl
  omega

theorem digit_ne_percent (d : Nat) (h : d < 10) : Char.ofNat (d + 48) ≠ '%' := by
  intro hc
  have := digit_toNat d h
  rw [hc] at this
  have h37 : ('%' : Char).toNat = 37 := rfl
  omega

theorem ubtoa_cons (v : Byte) : ∃ ch cs, ubtoa v = ch :: cs := by
  unfold ubtoa; split_ifs <;> exact ⟨_, _, rfl⟩

theorem Fin_ofNat_val (v : Byte) : (Fin.ofNat v.val : Byte) = v := by
  apply Fin.ext
  simp [Fin.ofNat, Nat.mod_eq_of_lt v.isLt]

/-- One digit read by the IPv4 loop. -/
theorem parseIPv4Loop_digit (n : Nat) (h : n < 10) (rest : List Char) (prev : Option Char)
    (val digLen : Nat) (fields : List Byte) (h1 : ¬ (digLen = 1 ∧ val = 0))
    (h2 : val * 10 + n ≤ 255) :
    parseIPv4Loop (Char.ofNat (n + 48) :: rest) prev val digLen fields =
      parseIPv4Loop rest (some (Char.ofNat (n + 48))) (val * 10 + n) (digLen + 1) fields := by
  have hd := digit_toNat n h
  rw [parseIPv4Loop]
  simp only [hd]
  rw [if_pos (by omega), if_neg h1]
  simp only [Nat.add_sub_cancel]
  rw [if_neg (by omega)]

/-- The digits `ubtoa` writes for a byte are read back as its value. -/
theorem parseIPv4Loop_octet (v : Byte) (rest : List Char) (prev : Option Char)
    (fields : List Byte) :
    ∃ d : Nat, d < 10 ∧ ∃ n, parseIPv4Loop (ubtoa v ++ rest) prev 0 0 fields =
      parseIPv4Loop rest (some (Char.ofNat (d + 48))) v.val n fields := by
  have hv := v.isLt
  unfold ubtoa
  split_ifs with h10 h100
  · refine ⟨v.val, h10, 1, ?_⟩
    rw [List.singleton_append, parseIPv4Loop_digit _ h10 _ _ _ _ _ (by simp) (by omega)]
    simp
  · refine ⟨v.val % 10, Nat.mod_lt _ (by norm_num), 2, ?_⟩
    rw [List.cons_append, List.singleton_append,
      parseIPv4Loop_digit _ (by omega) _ _ _ _ _ (by simp) (by omega),
      parseIPv4Loop_digit _ (Nat.mod_lt _ (by norm_num)) _ _ _ _ _ (by simp; omega) (by omega)]
    congr 1; omega
  · refine ⟨v.val % 10, Nat.mod_lt _ (by norm_num), 3, ?_⟩
    rw [List.cons_append, List.cons_append, List.singleton_append,
      parseIPv4Loop_digit _ (by omega) _ _ _ _ _ (by simp) (by omega),
      parseIPv4Loop_digit _ (Nat.mod_lt _ (by norm_num)) _ _ _ _ _ (by simp; omega) (by omega),
      parseIPv4Loop_digit _ (Nat.mod_lt _ (by norm_num)) _ _ _ _ _ (by simp) (by omega)]
    congr 1; omega

theorem parseIPv4Loop_octet_dot (v w : Byte) (rest : List Char) (prev : Option Char)
    (fields : List Byte) (hf : fields.length ≠ 3) :
    parseIPv4Loop (ubtoa v ++ '.' :: (ubtoa w ++ rest)) prev 0 0 fields =
      parseIPv4Loop (ubtoa w ++ rest) (some '.') 0 0 (fields ++ [v]) := by
  obtain ⟨d, hd, n, h⟩ := parseIPv4Loop_octet v ('.' :: (ubtoa w ++ rest)) prev fields
  obtain ⟨ch, cs, hw⟩ := ubtoa_cons w
  rw [h, hw, List.cons_append, parseIPv4Loop]
  have h46 : ('.' : Char).toNat = 46 := rfl
  have hne := digit_ne_dot d hd
  simp [h46, hf, hne, Fin_ofNat_val]

theorem parseIPv4Loop_octet_end (v : Byte) (prev : Option Char) (a b c : Byte) :
    parseIPv4Loop (ubtoa v) prev 0 0 [a, b, c] = some ⟨a, b, c, v⟩ := by
  obtain ⟨d, _, n, h⟩ := parseIPv4Loop_octet v [] prev [a, b, c]
  rw [List.append_nil] at h
  rw [h, parseIPv4Loop, Fin_ofNat_val]

/-- Parsing the dotted-decimal text of a 4-byte address gives the address. -/
theorem parseIPv4_dotted (v : IPv4) : parseIPv4 v.dotted.data = some v := by
  obtain ⟨a, b, c, d⟩ := v
  simp only [parseIPv4, IPv4.dotted]
  rw [parseIPv4Loop_octet_dot a b _ _ _ (by simp), parseIPv4Loop_octet_dot b c _ _ _ (by simp)]
  have := parseIPv4Loop_octet_dot c d [] (some '.') ([] ++ [a] ++ [b]) (by simp)
  rw [List.append_nil] at this
  rw [this]
  exact parseIPv4Loop_octet_end d _ a b c

/-- The scan of `ParseAddr` passes the digits of a byte and stops at the dot
after them. -/
theorem ParseAddr_octet_dot (v : Byte) (s rest : List Char) :
    ParseAddr s (ubtoa v ++ '.' :: rest) =
      match parseIPv4 s with
      | some w => w.As16
      | none => [] := by
  have hv := v.isLt
  have step : ∀ (d : Nat), d < 10 → ∀ cs,
      ParseAddr s (Char.ofNat (d + 48) :: cs) = ParseAddr s cs := by
    intro d hd cs
    rw [ParseAddr, if_neg (digit_ne_dot d hd), if_neg (digit_ne_colon d hd),
      if_neg (digit_ne_percent d hd)]
  have dot : ParseAddr s ('.' :: rest) =
      match parseIPv4 s with
      | some w => w.As16
      | none => [] := by
    rw [ParseAddr, if_pos rfl]
  unfold ubtoa
  split_ifs
  · rw [List.singleton_append, step _ (by omega), dot]
  · rw [List.cons_append, List.singleton_append, step _ (by omega),
      step _ (Nat.mod_lt _ (by norm_num)), dot]
  · rw [List.cons_append, List.cons_append, List.singleton_append, step _ (by omega),
      step _ (Nat.mod_lt _ (by norm_num)), step _ (Nat.mod_lt _ (by norm_num)), dot]

/-- The function `net.ParseIP` reads the text `IP.String` writes for a 4-byte
address back as the 16-byte form of that address. -/
theorem ParseIP_dotted (v : IPv4) : ParseIP v.dotted = v.As16 := by
  have h := parseIPv4_dotted v
  unfold ParseIP
  have hd : v.dotted.data = ubtoa v.a ++ '.' :: (ubtoa v.b ++ '.' :: (ubtoa v.c ++ '.' :: ubtoa v.d)) :=
    rfl
  rw [hd, ParseAddr_octet_dot, ← hd, h]

theorem To4_As16 (v : IPv4) : To4 v.As16 = some v := by
  simp [To4, IPv4.As16]

theorem As16_ne_nil (v : IPv4) : v.As16 ≠ [] := by
  simp [IPv4.As16]

/-- A 16-byte slice that `To4` accepts is the IPv4-mapped form of the result. -/
theorem eq_As16_of_To4 (ip : IP) (v : IPv4) (hl : ip.length = 16) (h : To4 ip = some v) :
    ip = v.As16 := by
  match ip, hl with
  | [z0, z1, z2, z3, z4, z5, z6, z7, z8, z9, f0, f1, a, b, c, d], _ =>
    simp only [To4] at h
    split_ifs at h with hc
    obtain ⟨hz, h0, h1⟩ := hc
    simp only [List.replicate, List.cons.injEq, and_true] at hz
    obtain ⟨e0, e1, e2, e3, e4, e5, e6, e7, e8, e9⟩ := hz
    cases h
    simp [IPv4.As16, *]

theorem dotted_injective (v w : IPv4) (h : v.dotted = w.dotted) : v = w := by
  have hv := parseIPv4_dotted v
  rw [h, parseIPv4_dotted w] at hv
  exact (Option.some.inj hv).symm

theorem dotted_ne_nilText (v : IPv4) : v.dotted ≠ "<nil>" := by
  intro h
  have hv := parseIPv4_dotted v
  rw [h] at hv
  have hn : parseIPv4 "<nil>".data = none := by decide
  rw [hn] at hv
  exact Option.noConfusion hv

/-- The texts the program compares are equal exactly when the 4-byte forms
are. -/
theorem IPString_eq_iff (x y : Option IPv4) : IPString x = IPString y ↔ x = y := by
  constructor
  · intro h
    cases x with
    | none =>
      cases y with
      | none => rfl
      | some w => exact absurd h.symm (dotted_ne_nilText w)
    | some v =>
      cases y with
      | none => exact absurd h (dotted_ne_nilText v)
      | some w => rw [dotted_injective v w h]
  · intro h; rw [h]

/-! ## Lemmas on the `net` package: `net.ParseIP` returns nil or 16 bytes -/

theorem V6State.inv_group (st : V6State) (hinv : st.Inv) (h16 : st.i < 16) (x y : Byte)
    (s : List Char) :
    V6State.Inv { s := s, ip := (st.ip.set st.i x).set (st.i + 1) y, i := st.i + 2,
                  ellipsis := st.ellipsis } := by
  obtain ⟨hl, he, hi, hell⟩ := hinv
  refine ⟨by simp [hl], by simp only; omega, by simp only; omega, ?_⟩
  intro e hE
  have := hell e hE
  simp only; omega

theorem V6State.inv_group_ellipsis (st : V6State) (hinv : st.Inv) (h16 : st.i < 16) (x y : Byte)
    (s : List Char) :
    V6State.Inv { s := s, ip := (st.ip.set st.i x).set (st.i + 1) y, i := st.i + 2,
                  ellipsis := some (st.i + 2) } := by
  obtain ⟨hl, he, hi, hell⟩ := hinv
  refine ⟨by simp [hl], by simp only; omega, by simp only; omega, ?_⟩
  intro e hE
  simp only [Option.some.injEq] at hE
  simp only; omega

theorem V6State.inv_embedded (st : V6State) (hinv : st.Inv) (h4 : ¬ st.i + 4 > 16)
    (x y z w : Byte) :
    V6State.Inv { s := [], ip := (((st.ip.set st.i x).set (st.i + 1) y).set (st.i + 2) z).set
                    (st.i + 3) w, i := st.i + 4, ellipsis := st.ellipsis } := by
  obtain ⟨hl, he, hi, hell⟩ := hinv
  refine ⟨by simp [hl], by simp only; omega, by simp only; omega, ?_⟩
  intro e hE
  have := hell e hE
  simp only; omega

theorem parseIPv6Loop_inv (fuel : Nat) : ∀ (st st' : V6State), st.Inv →
    parseIPv6Loop fuel st = some st' → st'.Inv := by
  induction fuel with
  | zero =>
    intro st st' hinv h
    simp only [parseIPv6Loop, Option.some.injEq] at h
    rw [← h]; exact hinv
  | succ n ih =>
    intro st st' hinv h
    rw [parseIPv6Loop] at h
    by_cases h16 : st.i < 16
    · rw [if_neg (not_not.mpr h16)] at h
      repeat' (first | split at h | dsimp only at h)
      all_goals first
        | exact Option.noConfusion h
        | (simp only [Option.some.injEq] at h
           rw [← h]
           first
             | exact V6State.inv_group st hinv h16 _ _ _
             | exact V6State.inv_group_ellipsis st hinv h16 _ _ _
             | exact V6State.inv_embedded st hinv (by assumption) _ _ _ _)
        | exact ih _ _ (V6State.inv_group st hinv h16 _ _ _) h
        | exact ih _ _ (V6State.inv_group_ellipsis st hinv h16 _ _ _) h
    · rw [if_pos h16] at h
      simp only [Option.some.injEq] at h
      rw [← h]; exact hinv

theorem parseIPv6_length (s : List Char) (ip : IP) (h : parseIPv6 s = some ip) :
    ip.length = 16 := by
  unfold parseIPv6 at h
  split_ifs at h with hp
  simp only at h
  split_ifs at h with h0
  · simp only [Option.some.injEq] at h
    rw [← h]; simp
  · split at h
    · exact Option.noConfusion h
    · rename_i st hst
      have hinv : st.Inv := by
        refine parseIPv6Loop_inv 8 _ st ?_ hst
        split
        · exact ⟨by simp, by simp, by simp, by intro e he; simp at he; omega⟩
        · exact ⟨by simp, by simp, by simp, by intro e he; simp at he⟩
      obtain ⟨hl, he, hi, hell⟩ := hinv
      split_ifs at h with h1 h2 h3
      · split at h
        · exact Option.noConfusion h
        · rename_i e hE
          have := hell e hE
          simp only [Option.some.injEq] at h
          rw [← h]
          simp [hl]; omega
      · simp only [Option.some.injEq] at h
        rw [← h]; exact hl

theorem ParseAddr_length (s : List Char) : ∀ cs, ParseAddr s cs = [] ∨ (ParseAddr s cs).length = 16 := by
  intro cs
  induction cs with
  | nil => left; rfl
  | cons ch cs ih =>
    rw [ParseAddr]
    split_ifs
    · split
      · right; rfl
      · left; rfl
    · split
      · rename_i ip hip
        right; exact parseIPv6_length s ip hip
      · left; rfl
    · left; rfl
    · exact ih

/-- What `net.ParseIP` returns is nil or has 16 bytes. -/
theorem ParseIP_length (s : String) : ParseIP s = [] ∨ (ParseIP s).length = 16 :=
  ParseAddr_length _ _

/-! ## Lemmas on the store -/

theorem ReadFile_WriteFile (fs : FS) (path data : String)
    (h : (WriteFile fs path data).2 = none) :
    ReadFile (WriteFile fs path data).1 path = .ok data := by
  unfold WriteFile at h ⊢
  cases hfs : fs path with
  | none => simp [ReadFile, FS.put]
  | some node =>
    cases node with
    | dir => simp [hfs] at h
    | file old ro =>
      cases ro with
      | true => simp [hfs] at h
      | false => simp [ReadFile, FS.put]

/-- After a write that succeeded, the store reads back as the address
written. -/
theorem getPreviousIP_persistNewIP (fs : FS) (path : String) (a : IP) (v : IPv4)
    (hv : To4 a = some v) (hw : (persistNewIP fs path a).2 = none) :
    getPreviousIP (persistNewIP fs path a).1 path = .ok v.As16 := by
  unfold persistNewIP at hw ⊢
  unfold getPreviousIP
  rw [ReadFile_WriteFile fs path _ hw, hv]
  simp only [IPString]
  rw [ParseIP_dotted]

/-- An iteration in which the resolver fails. -/
theorem tick_of_resolver_error (net : Network) (conf : Config) (fs : FS) (err : Error)
    (h : getPublicIP net conf = .error err) :
    tick net conf fs = { fs := fs, calls := [], flow := .continue } := by
  unfold tick
  rw [h]

/-- What `getPublicIP` returns without an error is not nil. -/
theorem getPublicIP_ne_nil (net : Network) (conf : Config) (ip : IP)
    (h : getPublicIP net conf = .ok ip) : ip ≠ [] := by
  unfold getPublicIP at h
  split at h
  · exact Except.noConfusion h
  · split at h
    · exact Except.noConfusion h
    · simp only at h
      split_ifs at h with h1 h2
      simp only [Except.ok.injEq] at h
      rw [← h]; exact h2

/-- What `getPublicIP` returns without an error has 16 bytes. -/
theorem getPublicIP_length (net : Network) (conf : Config) (ip : IP)
    (h : getPublicIP net conf = .ok ip) : ip.length = 16 := by
  have hne := getPublicIP_ne_nil net conf ip h
  unfold getPublicIP at h
  split at h
  · exact Except.noConfusion h
  · split at h
    · exact Except.noConfusion h
    · rename_i body _
      simp only at h
      split_ifs at h with h1 h2
      simp only [Except.ok.injEq] at h
      rcases ParseIP_length body with hn | hl
      · exact absurd hn h2
      · rw [← h]; exact hl

/-- What `getPreviousIP` returns without an error is nil or has 16 bytes. -/
theorem getPreviousIP_length (fs : FS) (path : String) (ip : IP)
    (h : getPreviousIP fs path = .ok ip) : ip = [] ∨ ip.length = 16 := by
  unfold getPreviousIP at h
  split at h
  · exact Except.noConfusion h
  · rename_i data _
    simp only [Except.ok.injEq] at h
    rw [← h]; exact ParseIP_length data

/-- The iteration when the comparison asks for an update. -/
theorem tick_of_update (net : Network) (conf : Config) (fs : FS) (prev ip : IP)
    (hr : getPublicIP net conf = .ok ip) (hp : getPreviousIP fs conf.DBPath = .ok prev)
    (hc : prev = [] ∨ To4 prev ≠ To4 ip) :
    tick net conf fs =
      match updateDNS net conf ip with
      | .fault _ => { fs := fs, calls := [.updateDNS ip], flow := .fault }
      | .ret _ => { fs := (persistNewIP fs conf.DBPath ip).1
                    calls := [.updateDNS ip, .persistNewIP ip]
                    flow := .continue } := by
  have hne := getPublicIP_ne_nil net conf ip hr
  have hc2 : prev = [] ∨ IPString (To4 prev) ≠ IPString (To4 ip) := by
    rcases hc with h | h
    · exact Or.inl h
    · exact Or.inr (fun he => h ((IPString_eq_iff _ _).mp he))
  unfold tick
  rw [hr]
  simp only [if_neg hne]
  rw [hp]
  simp only [if_pos hc2]

/-- The iteration when the comparison finds the stored address unchanged. -/
theorem tick_of_unchanged (net : Network) (conf : Config) (fs : FS) (prev ip : IP)
    (hr : getPublicIP net conf = .ok ip) (hp : getPreviousIP fs conf.DBPath = .ok prev)
    (hne : prev ≠ []) (hc : To4 prev = To4 ip) :
    tick net conf fs = { fs := fs, calls := [], flow := .continue } := by
  unfold tick
  rw [hr, hp]
  simp [hne, hc]

/-- The calls of an iteration that updates, whether `updateDNS` returns or
panics. -/
theorem tick_update_calls (net : Network) (conf : Config) (fs : FS) (prev ip : IP)
    (hr : getPublicIP net conf = .ok ip) (hp : getPreviousIP fs conf.DBPath = .ok prev)
    (hc : prev = [] ∨ To4 prev ≠ To4 ip) :
    (∃ rest, (tick net conf fs).calls = .updateDNS ip :: rest) ∧
    ∀ r, updateDNS net conf ip = .ret r →
      (tick net conf fs).calls = [.updateDNS ip, .persistNewIP ip] ∧
      (tick net conf fs).flow = .continue ∧
      (tick net conf fs).fs = (persistNewIP fs conf.DBPath ip).1 := by
  have ht := tick_of_update net conf fs prev ip hr hp hc
  constructor
  · rw [ht]
    cases updateDNS net conf ip with
    | ret r => exact ⟨_, rfl⟩
    | fault msg => exact ⟨_, rfl⟩
  · intro r hu
    rw [ht, hu]
    exact ⟨rfl, rfl, rfl⟩

/-- After an iteration that persisted an IPv4 address with success, the store
reads back as that address. -/
theorem store_after_persist (net : Network) (conf : Config) (fs : FS) (ip : IP)
    (hr : getPublicIP net conf = .ok ip) (h4 : To4 ip ≠ none)
    (hw : (persistNewIP fs conf.DBPath ip).2 = none) :
    getPreviousIP (persistNewIP fs conf.DBPath ip).1 conf.DBPath = .ok ip := by
  obtain ⟨v, hv⟩ := Option.ne_none_iff_exists'.mp h4
  rw [getPreviousIP_persistNewIP fs conf.DBPath ip v hv hw,
    eq_As16_of_To4 ip v (getPublicIP_length net conf ip hr) hv]

/-! ## The claims -/

/-- C1: when `getPublicIP` returns an error (a transport failure, a status
other than success such as 503, a body that does not parse), the iteration
calls neither `updateDNS` nor `persistNewIP`, leaves the file system as it was,
and the loop goes on with the next tick: running the loop from this tick is
running it from the next one. -/
theorem C1_resolver_error_skips_tick (net : Network) (conf : Config) (fs : FS)
    (nets : List Network) (err : Error) (h : getPublicIP net conf = .error err) :
    tick net conf fs = { fs := fs, calls := [], flow := .continue } ∧
    MonitorIPAddress conf fs (net :: nets) = MonitorIPAddress conf fs nets := by
  have ht := tick_of_resolver_error net conf fs err h
  refine ⟨ht, ?_⟩
  rw [MonitorIPAddress, ht]
  simp

/-- C1 at the resolver answering 503, with one more tick to go. -/
theorem C1_witness_status_503 :
    tick (networkWith 503 "Service Unavailable" updateOK) exampleConf (storeWith "203.0.113.5" false)
      = { fs := storeWith "203.0.113.5" false, calls := [], flow := .continue } ∧
    MonitorIPAddress exampleConf (storeWith "203.0.113.5" false)
        [networkWith 503 "Service Unavailable" updateOK, networkWith 200 "203.0.113.5" updateOK]
      = MonitorIPAddress exampleConf (storeWith "203.0.113.5" false)
        [networkWith 200 "203.0.113.5" updateOK] :=
  C1_resolver_error_skips_tick (networkWith 503 "Service Unavailable" updateOK) exampleConf
    (storeWith "203.0.113.5" false) [networkWith 200 "203.0.113.5" updateOK]
    ("unsuccessful status code returned from API: " ++ toString 503) rfl

/-- C2: when the store holds an address and `getPublicIP` resolves an address
with the same bytes, the iteration calls neither `updateDNS` nor
`persistNewIP` and leaves the file system as it was. -/
theorem C2_equal_addresses_no_update (net : Network) (conf : Config) (fs : FS)
    (stored resolved : IP) (hs : getPreviousIP fs conf.DBPath = .ok stored)
    (hne : stored ≠ []) (hr : getPublicIP net conf = .ok resolved)
    (heq : stored = resolved) :
    tick net conf fs = { fs := fs, calls := [], flow := .continue } := by
  subst heq
  unfold tick
  rw [hr, hs]
  simp [hne]

/-- C2 at the store holding 203.0.113.5 and the resolver returning
203.0.113.5. -/
theorem C2_witness_same_address :
    tick (networkWith 200 "203.0.113.5" updateOK) exampleConf (storeWith "203.0.113.5" false)
      = { fs := storeWith "203.0.113.5" false, calls := [], flow := .continue } :=
  C2_equal_addresses_no_update (networkWith 200 "203.0.113.5" updateOK) exampleConf
    (storeWith "203.0.113.5" false) ip203 ip203 rfl (by decide) rfl rfl

/-- C3, as stated, fails: with the store absent and the resolver returning a
value `getPublicIP` accepts, the store does not always contain the resolved
address afterwards.  First input: the resolver returns `::1`, which
`net.ParseIP` accepts; `persistNewIP` writes the text of its 4-byte form, which
is `<nil>`, and the store is still absent.  Second input: the resolver returns
203.0.113.5 and the store is an empty read-only file; both calls are made, the
write fails and the store is still absent. -/
theorem C3_counterexample_store_without_resolved_address :
    (getPublicIP (networkWith 200 "::1" updateOK) exampleConf = .ok ip6one ∧
      getPreviousIP (storeWith "" false) exampleConf.DBPath = .ok [] ∧
      (tick (networkWith 200 "::1" updateOK) exampleConf (storeWith "" false)).calls
        = [.updateDNS ip6one, .persistNewIP ip6one] ∧
      ReadFile (tick (networkWith 200 "::1" updateOK) exampleConf (storeWith "" false)).fs
        exampleConf.DBPath = .ok "<nil>" ∧
      getPreviousIP (tick (networkWith 200 "::1" updateOK) exampleConf (storeWith "" false)).fs
        exampleConf.DBPath = .ok []) ∧
    (getPublicIP (networkWith 200 "203.0.113.5" updateOK) exampleConf = .ok ip203 ∧
      getPreviousIP (storeWith "" true) exampleConf.DBPath = .ok [] ∧
      (tick (networkWith 200 "203.0.113.5" updateOK) exampleConf (storeWith "" true)).calls
        = [.updateDNS ip203, .persistNewIP ip203] ∧
      getPreviousIP (tick (networkWith 200 "203.0.113.5" updateOK) exampleConf
        (storeWith "" true)).fs exampleConf.DBPath = .ok []) :=
  ⟨⟨rfl, rfl, rfl, rfl, rfl⟩, ⟨rfl, rfl, rfl, rfl⟩⟩

/-- C3, amended: when `getPublicIP` resolves an address and `getPreviousIP`
reports the store as absent, the iteration calls `updateDNS` with that address
first; when `updateDNS` returns, with or without an error, it then calls
`persistNewIP` with that address and goes on to the next tick, the file system
being the one `persistNewIP` leaves; and when the address is an IPv4 address
and the write succeeds, the store then reads back as the resolved address. -/
theorem C3_amended_absent_store_update_and_persist (net : Network) (conf : Config) (fs : FS)
    (ip : IP) (hr : getPublicIP net conf = .ok ip)
    (hp : getPreviousIP fs conf.DBPath = .ok []) :
    (∃ rest, (tick net conf fs).calls = .updateDNS ip :: rest) ∧
    ∀ r, updateDNS net conf ip = .ret r →
      (tick net conf fs).calls = [.updateDNS ip, .persistNewIP ip] ∧
      (tick net conf fs).flow = .continue ∧
      (tick net conf fs).fs = (persistNewIP fs conf.DBPath ip).1 ∧
      (To4 ip ≠ none → (persistNewIP fs conf.DBPath ip).2 = none →
        getPreviousIP (tick net conf fs).fs conf.DBPath = .ok ip) := by
  obtain ⟨h1, h2⟩ := tick_update_calls net conf fs [] ip hr hp (Or.inl rfl)
  refine ⟨h1, ?_⟩
  intro r hu
  obtain ⟨hc, hf, hfs⟩ := h2 r hu
  refine ⟨hc, hf, hfs, ?_⟩
  intro h4 hw
  rw [hfs]
  exact store_after_persist net conf fs ip hr h4 hw

/-- C3, amended, at the store absent and the resolver returning 203.0.113.5:
the updater is called with 203.0.113.5 and the store then holds
203.0.113.5. -/
theorem C3_witness_first_resolution :
    (tick (networkWith 200 "203.0.113.5" updateOK) exampleConf (storeWith "" false)).calls
      = [.updateDNS ip203, .persistNewIP ip203] ∧
    getPreviousIP (tick (networkWith 200 "203.0.113.5" updateOK) exampleConf
      (storeWith "" false)).fs exampleConf.DBPath = .ok ip203 :=
  have h := (C3_amended_absent_store_update_and_persist (networkWith 200 "203.0.113.5" updateOK)
    exampleConf (storeWith "" false) ip203 rfl rfl).2 none rfl
  ⟨h.1, h.2.2.2 (by decide) rfl⟩

/-- C4, as stated, fails: an iteration in which the resolved address differs
from the stored one and `updateDNS` returns an error calls `persistNewIP`, but
the store is not always overwritten with the new address.  First input: the
store holds 203.0.113.5 in a read-only file, the resolver returns 198.51.100.9
and the update is refused after a redirect loop; the write fails and the store
still holds 203.0.113.5.  Second input: the store holds 203.0.113.5, the
resolver returns `::1`; the text written is `<nil>` and the store is absent. -/
theorem C4_counterexample_store_not_overwritten :
    (getPublicIP (networkWith 200 "198.51.100.9" updateRedirectLoop) exampleConf = .ok ip198 ∧
      getPreviousIP (storeWith "203.0.113.5" true) exampleConf.DBPath = .ok ip203 ∧
      updateDNS (networkWith 200 "198.51.100.9" updateRedirectLoop) exampleConf ip198
        = .ret updateRedirectLoop.2 ∧
      updateRedirectLoop.2 ≠ none ∧
      (tick (networkWith 200 "198.51.100.9" updateRedirectLoop) exampleConf
        (storeWith "203.0.113.5" true)).calls = [.updateDNS ip198, .persistNewIP ip198] ∧
      getPreviousIP (tick (networkWith 200 "198.51.100.9" updateRedirectLoop) exampleConf
        (storeWith "203.0.113.5" true)).fs exampleConf.DBPath = .ok ip203) ∧
    (getPublicIP (networkWith 200 "::1" updateRedirectLoop) exampleConf = .ok ip6one ∧
      getPreviousIP (storeWith "203.0.113.5" false) exampleConf.DBPath = .ok ip203 ∧
      updateDNS (networkWith 200 "::1" updateRedirectLoop) exampleConf ip6one
        = .ret updateRedirectLoop.2 ∧
      (tick (networkWith 200 "::1" updateRedirectLoop) exampleConf
        (storeWith "203.0.113.5" false)).calls = [.updateDNS ip6one, .persistNewIP ip6one] ∧
      getPreviousIP (tick (networkWith 200 "::1" updateRedirectLoop) exampleConf
        (storeWith "203.0.113.5" false)).fs exampleConf.DBPath = .ok []) :=
  ⟨⟨rfl, rfl, rfl, by decide, rfl, rfl⟩, ⟨rfl, rfl, rfl, rfl, rfl⟩⟩

/-- C4, amended: in an iteration in which the stored address and the resolved
one differ in their 4-byte forms and `updateDNS` returns an error, the
iteration still calls `persistNewIP` with the resolved address after
`updateDNS` and goes on to the next tick; when the resolved address is an IPv4
address and the write succeeds, the store is overwritten with it. -/
theorem C4_amended_persist_after_failed_update (net : Network) (conf : Config) (fs : FS)
    (prev ip : IP) (err : Error) (hr : getPublicIP net conf = .ok ip)
    (hp : getPreviousIP fs conf.DBPath = .ok prev) (hd : To4 prev ≠ To4 ip)
    (hu : updateDNS net conf ip = .ret (some err)) :
    (tick net conf fs).calls = [.updateDNS ip, .persistNewIP ip] ∧
    (tick net conf fs).flow = .continue ∧
    (tick net conf fs).fs = (persistNewIP fs conf.DBPath ip).1 ∧
    (To4 ip ≠ none → (persistNewIP fs conf.DBPath ip).2 = none →
      getPreviousIP (tick net conf fs).fs conf.DBPath = .ok ip) := by
  obtain ⟨_, h2⟩ := tick_update_calls net conf fs prev ip hr hp (Or.inr hd)
  obtain ⟨hc, hf, hfs⟩ := h2 _ hu
  refine ⟨hc, hf, hfs, ?_⟩
  intro h4 hw
  rw [hfs]
  exact store_after_persist net conf fs ip hr h4 hw

/-- C4, amended, at the store holding 203.0.113.5, the resolver returning
198.51.100.9 and the update failing: the store then holds 198.51.100.9. -/
theorem C4_witness_failed_update :
    (tick (networkWith 200 "198.51.100.9" updateRedirectLoop) exampleConf
      (storeWith "203.0.113.5" false)).calls = [.updateDNS ip198, .persistNewIP ip198] ∧
    getPreviousIP (tick (networkWith 200 "198.51.100.9" updateRedirectLoop) exampleConf
      (storeWith "203.0.113.5" false)).fs exampleConf.DBPath = .ok ip198 :=
  have h := C4_amended_persist_after_failed_update
    (networkWith 200 "198.51.100.9" updateRedirectLoop) exampleConf
    (storeWith "203.0.113.5" false) ip203 ip198
    "Post \"https://updates.dnsomatic.com/nic/update\": stopped after 10 redirects"
    rfl rfl (by decide) rfl
  ⟨h.1, h.2.2.2 (by decide) rfl⟩

/-- C5, as stated, fails: the store holds `::1`, the resolver returns `::2`; the
two addresses differ by byte value, and the iteration takes the branch where no
update is required: neither has a 4-byte form and the text compared is `<nil>`
on both sides. -/
theorem C5_counterexample_distinct_addresses_no_update :
    getPreviousIP (storeWith "::1" false) exampleConf.DBPath = .ok ip6one ∧
    getPublicIP (networkWith 200 "::2" updateOK) exampleConf = .ok ip6two ∧
    ip6one ≠ ip6two ∧
    (tick (networkWith 200 "::2" updateOK) exampleConf (storeWith "::1" false)).calls = [] ∧
    (tick (networkWith 200 "::2" updateOK) exampleConf (storeWith "::1" false)).flow
      = .continue :=
  ⟨rfl, rfl, by decide, rfl, rfl⟩

/-- C5, amended: for a stored address returned by `getPreviousIP` and an address
returned by `getPublicIP`, the iteration compares the 4-byte forms: when they
differ it calls `updateDNS` with the new address (and then, when `updateDNS`
returns, `persistNewIP`), and when they are equal it takes the branch where no
update is required.  When at least one of the two is an IPv4 address, the
4-byte forms differ exactly when the two addresses differ by byte value. -/
theorem C5_amended_update_iff_ipv4_forms_differ (net : Network) (conf : Config) (fs : FS)
    (prev ip : IP) (hp : getPreviousIP fs conf.DBPath = .ok prev) (hne : prev ≠ [])
    (hr : getPublicIP net conf = .ok ip) :
    (To4 prev ≠ To4 ip →
      (∃ rest, (tick net conf fs).calls = .updateDNS ip :: rest) ∧
      ∀ r, updateDNS net conf ip = .ret r →
        (tick net conf fs).calls = [.updateDNS ip, .persistNewIP ip]) ∧
    (To4 prev = To4 ip → tick net conf fs = { fs := fs, calls := [], flow := .continue }) ∧
    (To4 prev ≠ none ∨ To4 ip ≠ none → (To4 prev ≠ To4 ip ↔ prev ≠ ip)) := by
  refine ⟨?_, ?_, ?_⟩
  · intro hd
    obtain ⟨h1, h2⟩ := tick_update_calls net conf fs prev ip hr hp (Or.inr hd)
    exact ⟨h1, fun r hu => (h2 r hu).1⟩
  · intro he
    exact tick_of_unchanged net conf fs prev ip hr hp hne he
  · intro h4
    have hlp : prev.length = 16 := by
      rcases getPreviousIP_length fs conf.DBPath prev hp with h | h
      · exact absurd h hne
      · exact h
    have hli := getPublicIP_length net conf ip hr
    constructor
    · intro hd he
      exact hd (by rw [he])
    · intro hd he
      apply hd
      rcases h4 with h | h
      · obtain ⟨v, hv⟩ := Option.ne_none_iff_exists'.mp h
        rw [eq_As16_of_To4 prev v hlp hv, eq_As16_of_To4 ip v hli (he ▸ hv)]
      · obtain ⟨v, hv⟩ := Option.ne_none_iff_exists'.mp h
        rw [eq_As16_of_To4 ip v hli hv, eq_As16_of_To4 prev v hlp (he ▸ hv)]

/-- C5, amended, at the store holding 203.0.113.5 and the resolver returning
198.51.100.9: the updater and then the store are called with 198.51.100.9. -/
theorem C5_witness_changed_address :
    (tick (networkWith 200 "198.51.100.9" updateOK) exampleConf
      (storeWith "203.0.113.5" false)).calls = [.updateDNS ip198, .persistNewIP ip198] ∧
    (To4 ip203 ≠ To4 ip198 ↔ ip203 ≠ ip198) :=
  have h := C5_amended_update_iff_ipv4_forms_differ (networkWith 200 "198.51.100.9" updateOK)
    exampleConf (storeWith "203.0.113.5" false) ip203 ip198 rfl (by decide) rfl
  ⟨(h.1 (by decide)).2 none rfl, h.2.2 (Or.inl (by decide))⟩

/-- C6: when `persistNewIP` has written a valid IPv4 address `a` (in 4 or in 16
bytes) with success, `getPreviousIP` on the same path returns no error and the
address with the same four bytes, in 16 bytes; it is `a` itself when `a` has 16
bytes, as every address `net.ParseIP` returns. -/
theorem C6_store_round_trip (fs : FS) (path : String) (a : IP) (v : IPv4)
    (hv : To4 a = some v) (hw : (persistNewIP fs path a).2 = none) :
    getPreviousIP (persistNewIP fs path a).1 path = .ok v.As16 ∧
    To4 v.As16 = To4 a ∧
    (a.length = 16 → v.As16 = a) := by
  refine ⟨getPreviousIP_persistNewIP fs path a v hv hw, ?_, ?_⟩
  · rw [To4_As16, hv]
  · intro hl
    exact (eq_As16_of_To4 a v hl hv).symm

/-- C6 at the address 203.0.113.5 written to a store that did not exist. -/
theorem C6_witness_round_trip :
    getPreviousIP (persistNewIP noFiles "/data/ip.db" ip203).1 "/data/ip.db" = .ok ip203 :=
  (C6_store_round_trip noFiles "/data/ip.db" ip203 ⟨203, 0, 113, 5⟩ rfl rfl).1

/-- C7 fails on the code: when the request is well formed and `client.Do`
returns a nil response with an error, `updateDNS` does not return the error: it
panics on `res.Status` (line 215). -/
theorem C7_updateDNS_panics_on_transport_failure (net : Network) (conf : Config) (ip : IP)
    (err : Error)
    (hreq : net.NewRequest "POST" (conf.getUpdateReqURL (IPString (To4 ip))) = none)
    (hdo : ∀ client req, net.Do client req = (none, some err)) :
    updateDNS net conf ip = .fault "invalid memory address or nil pointer dereference" := by
  unfold updateDNS
  simp only [hreq, hdo]

/-- C7 at an update endpoint that cannot be reached; the iteration that calls
`updateDNS` then ends in the panic, before `persistNewIP`. -/
theorem C7_witness_unreachable_endpoint :
    updateDNS (networkWith 200 "198.51.100.9" updateUnreachable) exampleConf ip198
      = .fault "invalid memory address or nil pointer dereference" :=
  C7_updateDNS_panics_on_transport_failure (networkWith 200 "198.51.100.9" updateUnreachable)
    exampleConf ip198
    "Post \"https://updates.dnsomatic.com/nic/update\": dial tcp: connection refused"
    rfl (fun _ _ => rfl)

/-- C8, as stated, fails in both directions.  Status 204 is a success status
and the body 203.0.113.5 is a valid IPv4 literal, yet `getPublicIP` returns an
error: only 200 is accepted.  With status 200, a body that is a valid IPv4
literal once trimmed, here with a newline at its end, is refused: the body is
parsed as received.  With status 200 the body `::1`, which is no IPv4 literal,
is accepted: `net.ParseIP` reads IPv6 text as well. -/
theorem C8_counterexample_status_204_and_untrimmed_body :
    (isSuccessStatus 204 = true ∧
      parseIPv4 (trimSpace "203.0.113.5").data = some ⟨203, 0, 113, 5⟩ ∧
      getPublicIP (networkWith 204 "203.0.113.5" updateOK) exampleConf
        = .error "unsuccessful status code returned from API: 204") ∧
    (isSuccessStatus 200 = true ∧
      parseIPv4 (trimSpace "203.0.113.5\n").data = some ⟨203, 0, 113, 5⟩ ∧
      getPublicIP (networkWith 200 "203.0.113.5\n" updateOK) exampleConf
        = .error "unable to parse IP address: 203.0.113.5\n") ∧
    (parseIPv4 (trimSpace "::1").data = none ∧
      getPublicIP (networkWith 200 "::1" updateOK) exampleConf = .ok ip6one) :=
  ⟨⟨by decide, by decide, rfl⟩, ⟨by decide, by decide, rfl⟩, ⟨by decide, rfl⟩⟩

/-- C8, amended: `getPublicIP` returns an address and no error if and only if
the GET and the reading of the body succeed, the status is 200 and
`net.ParseIP` accepts the body as received (IPv4 dotted decimal or IPv6 text,
nothing trimmed); the address returned is the one `net.ParseIP` reads, and for
a body that is the dotted-decimal text of an IPv4 address it is that
address. -/
theorem C8_amended_success_iff_200_and_body_parses (net : Network) (conf : Config) :
    (∀ ip, getPublicIP net conf = .ok ip ↔
      ∃ res body, net.Get conf.getPublicIPReqURL = .ok res ∧ res.Body = .ok body ∧
        res.StatusCode = 200 ∧ ParseIP body ≠ [] ∧ ip = ParseIP body) ∧
    (∀ res v, net.Get conf.getPublicIPReqURL = .ok res → res.Body = .ok v.dotted →
      res.StatusCode = 200 → getPublicIP net conf = .ok v.As16 ∧ To4 v.As16 = some v) := by
  have key : ∀ res body, net.Get conf.getPublicIPReqURL = .ok res → res.Body = .ok body →
      res.StatusCode = 200 → ParseIP body ≠ [] → getPublicIP net conf = .ok (ParseIP body) := by
    intro res body hg hb hs hp
    unfold getPublicIP
    rw [hg]
    simp only [hb, hs]
    simp [hp]
  constructor
  · intro ip
    constructor
    · intro h
      unfold getPublicIP at h
      split at h
      · exact Except.noConfusion h
      · rename_i res hg
        split at h
        · exact Except.noConfusion h
        · rename_i body hb
          simp only at h
          split_ifs at h with h1 h2
          simp only [Except.ok.injEq] at h
          exact ⟨res, body, hg, hb, not_not.mp h1, h2, h.symm⟩
    · rintro ⟨res, body, hg, hb, hs, hp, rfl⟩
      exact key res body hg hb hs hp
  · intro res v hg hb hs
    have hp : ParseIP v.dotted = v.As16 := ParseIP_dotted v
    have := key res v.dotted hg hb hs (by rw [hp]; exact As16_ne_nil v)
    rw [hp] at this
    exact ⟨this, To4_As16 v⟩

/-- C8, amended, at the resolver answering 200 with the body 203.0.113.5. -/
theorem C8_witness_resolver_200 :
    getPublicIP (networkWith 200 "203.0.113.5" updateOK) exampleConf = .ok ip203 :=
  ((C8_amended_success_iff_200_and_body_parses (networkWith 200 "203.0.113.5" updateOK)
    exampleConf).1 ip203).mpr
    ⟨{ StatusCode := 200, Status := toString 200, Body := .ok "203.0.113.5" }, "203.0.113.5",
      rfl, rfl, rfl, by decide, by decide⟩

/-- C9, as stated, fails: when no file exists at the path, `getPreviousIP`
returns the error of `os.ReadFile`, not the absent value, and the iteration
that reads the store leaves the loop. -/
theorem C9_counterexample_missing_file_is_an_error :
    noFiles "/data/ip.db" = none ∧
    getPreviousIP noFiles "/data/ip.db" = .error "open /data/ip.db: no such file or directory" ∧
    getPreviousIP noFiles "/data/ip.db" ≠ .ok [] ∧
    (tick (networkWith 200 "203.0.113.5" updateOK) exampleConf noFiles).flow = .return :=
  ⟨rfl, rfl, fun h => Except.noConfusion h, rfl⟩

/-- C9, amended: when the file can be read, `getPreviousIP` returns without an
error what `net.ParseIP` reads in its contents, so the absent value when they
do not parse, empty contents included; it returns an error exactly when
`os.ReadFile` fails, and a file that does not exist is such a failure.  A path
at which nothing existed reads as absent once `createFileStorage` has run, as
it does before the loop starts. -/
theorem C9_amended_absent_only_for_readable_file (fs : FS) (path : String) :
    (∀ data, ReadFile fs path = .ok data → getPreviousIP fs path = .ok (ParseIP data)) ∧
    (∀ ro, fs path = some (.file "" ro) → getPreviousIP fs path = .ok []) ∧
    (∀ err, getPreviousIP fs path = .error err ↔ ReadFile fs path = .error err) ∧
    (fs path = none → ∃ err, getPreviousIP fs path = .error err) ∧
    (fs path = none → getPreviousIP (createFileStorage fs path) path = .ok []) := by
  refine ⟨?_, ?_, ?_, ?_, ?_⟩
  · intro data h
    unfold getPreviousIP
    rw [h]
  · intro ro h
    unfold getPreviousIP ReadFile
    rw [h]
    rfl
  · intro err
    unfold getPreviousIP
    cases ReadFile fs path with
    | error e => simp
    | ok data => simp
  · intro h
    unfold getPreviousIP ReadFile
    rw [h]
    exact ⟨_, rfl⟩
  · intro h
    unfold createFileStorage getPreviousIP ReadFile
    rw [h]
    simp only [FS.put, if_true]
    rfl

/-- C9, amended, at a store whose contents are not an address, and at a path
where `createFileStorage` has created the file. -/
theorem C9_witness_unparsable_contents :
    getPreviousIP (storeWith "not an address" false) "/data/ip.db" = .ok [] ∧
    getPreviousIP (createFileStorage noFiles "/data/ip.db") "/data/ip.db" = .ok [] :=
  have h := C9_amended_absent_only_for_readable_file
  ⟨(h (storeWith "not an address" false) "/data/ip.db").1 "not an address" rfl,
    (h noFiles "/data/ip.db").2.2.2.2 rfl⟩

/-- C10 fails on the code: for every configuration and address text the URL of
`getUpdateReqURL` has two `&` between the `myip` and the `wildcard` parameters,
so it is never the documented URL, which is one character shorter. -/
theorem C10_update_url_has_double_ampersand (c : Config) (ip : String) :
    c.getUpdateReqURL ip =
      "https://" ++ c.UpdHost ++ "/nic/update?hostname=" ++ c.DNSHost ++ "&myip=" ++ ip
        ++ "&" ++ "&wildcard=" ++ c.Wildcard ++ "&mx=" ++ c.MX ++ "&backmx=" ++ c.BackMX ∧
    (c.getUpdateReqURL ip).length = (documentedUpdateURL c ip).length + 1 ∧
    c.getUpdateReqURL ip ≠ documentedUpdateURL c ip := by
  have hlen : (c.getUpdateReqURL ip).length = (documentedUpdateURL c ip).length + 1 := by
    simp only [Config.getUpdateReqURL, documentedUpdateURL, String.length_append]
    have h1 : "&&wildcard=".length = 11 := by decide
    have h2 : "&wildcard=".length = 10 := by decide
    omega
  refine ⟨?_, hlen, ?_⟩
  · simp only [Config.getUpdateReqURL, String.append_assoc]
    rfl
  · intro h
    rw [h] at hlen
    omega

end DdnsUpdater
